import Mathlib

/-!
Shallow embedding of the order-lifecycle controller and the two data-feed
tasks of `market_maker.py` (Pacifica market-making bot).

Modelling conventions: Python floats are rationals (`ℚ`), `None`-able
fields are `Option`, Python truthiness of numbers is an explicit test
against zero, wire-protocol dictionaries are association lists over a small
value type, and each relevant code path is a pure transition function on an
explicit state record.  Logging is pure I/O and is modelled only in the
`account_orders` branch of the user-data feed, where the log level is part
of a verified property; elsewhere log calls are dropped.
-/

/-- USD notional threshold for switching between opening and closing mode
(`POSITION_THRESHOLD_USD = 15.0`). -/
def POSITION_THRESHOLD_USD : ℚ := 15

/-- Default relative price-change threshold for order reuse
(`DEFAULT_PRICE_CHANGE_THRESHOLD = 0.001`). -/
def DEFAULT_PRICE_CHANGE_THRESHOLD : ℚ := 1 / 1000

/-- Quantity-comparison epsilon used by `should_reuse_order`
(the literal `0.000000000001` in the source). -/
def REUSE_QTY_EPS : ℚ := 1 / 10 ^ 12

/-- Position-comparison epsilon used by the account feed (`1e-9`). -/
def POS_EPS : ℚ := 1 / 10 ^ 9

/-- `CANCEL_SPECIFIC_ORDER = True` in the source configuration. -/
def CANCEL_SPECIFIC_ORDER : Bool := true

/-- Shared strategy state (`class StrategyState`).  Modes are the Python
strings "bid" / "ask".  Fields not needed by any verified property
(reporting counters, auth token, queues) are omitted; the queue contents
appear as explicit event lists in the feed transition functions. -/
structure MMState where
  bid_price : Option ℚ := none
  ask_price : Option ℚ := none
  mid_price : Option ℚ := none
  active_order_id : Option Nat := none
  position_size : ℚ := 0
  flip_mode : Bool := false
  mode : String := "bid"
  last_order_price : Option ℚ := none
  last_order_side : Option String := none
  last_order_quantity : Option ℚ := none
  account_balance : Option ℚ := none
  balance_last_updated : Option ℚ := none
  usdc_balance : ℚ := 0
deriving DecidableEq, Repr

/-- `StrategyState.__init__`: mode starts as "ask" when `flip_mode` else "bid". -/
def mkStrategyState (flip : Bool) : MMState :=
  { flip_mode := flip, mode := if flip then "ask" else "bid" }

/-- Opening side for the current bias (`'ask' if flip_mode else 'bid'`). -/
def opening_mode (flip : Bool) : String := if flip then "ask" else "bid"

/-- Closing side for the current bias (`'bid' if flip_mode else 'ask'`). -/
def closing_mode (flip : Bool) : String := if flip then "bid" else "ask"

/-- Python truthiness of an optional integer (`if state.active_order_id:`):
`None` and `0` are falsy. -/
def pytruthyNat (o : Option Nat) : Bool := decide (o.getD 0 ≠ 0)

/-- Python truthiness of an optional float (`if state.mid_price:`):
`None` and `0.0` are falsy. -/
def pytruthyQ (o : Option ℚ) : Bool := decide (o.getD 0 ≠ 0)

/-- Python `x if x else dflt` for an optional string (empty string falsy). -/
def pyStrOr (o : Option String) (dflt : String) : String :=
  match o with
  | some s => if s = "" then dflt else s
  | none => dflt

/-- `is_price_data_valid`: mid price and the global `price_last_updated`
must be set and the update at most 30 seconds old. -/
def is_price_data_valid (st : MMState) (price_last_updated : Option ℚ)
    (now : ℚ) : Bool :=
  if st.mid_price = none ∨ price_last_updated = none then false
  else if 30 < now - price_last_updated.getD 0 then false
  else true

/-- `is_balance_data_valid`: both balance fields must be set; there is no
age check on `balance_last_updated`. -/
def is_balance_data_valid (st : MMState) : Bool :=
  if st.account_balance = none ∨ st.balance_last_updated = none then false
  else true

/-- Python `int()` on a rational: truncation toward zero. -/
def pyint (x : ℚ) : ℤ := if 0 ≤ x then ⌊x⌋ else ⌈x⌉

/-- `round_down(value, precision)`: `int(value * 10**precision) / 10**precision`. -/
def round_down (value : ℚ) (precision : ℕ) : ℚ :=
  ((pyint (value * 10 ^ precision) : ℚ)) / 10 ^ precision

/-- Python built-in `round` to an integer: round half to even. -/
def pyround (x : ℚ) : ℤ :=
  let n := ⌊x⌋
  let frac := x - n
  if frac < 1 / 2 then n
  else if 1 / 2 < frac then n + 1
  else if n % 2 = 0 then n else n + 1

/-- Rounding of a value to `prec` decimal places as performed by the
f-string formatting `f"{x:.{prec}f}"` (round half to even), followed by the
`float(...)` re-parse in the loop. -/
def fmtq (x : ℚ) (prec : ℕ) : ℚ := ((pyround (x * 10 ^ prec) : ℚ)) / 10 ^ prec

/-- Price quantization performed per cycle:
`rounded_price = round(limit_price / tick_size) * tick_size` followed by
formatting to `price_precision` decimals. -/
def quantize_price (limit_price tick_size : ℚ) (price_precision : ℕ) : ℚ :=
  fmtq ((pyround (limit_price / tick_size) : ℚ) * tick_size) price_precision

/-- `should_reuse_order(state, new_price, new_side, new_quantity, threshold)`.
The result is `none` where Python would raise (subtraction with a `None`
quantity, or division by a zero last price), `some b` otherwise. -/
def should_reuse_order (st : MMState) (new_price : ℚ) (new_side : String)
    (new_quantity : ℚ) (threshold : ℚ) : Option Bool :=
  match st.active_order_id, st.last_order_price with
  | none, _ => some false
  | some _, none => some false
  | some _, some lp =>
    if st.last_order_side ≠ some new_side then some false
    else
      match st.last_order_quantity with
      | none => none
      | some q0 =>
        if REUSE_QTY_EPS < |q0 - new_quantity| then some false
        else if lp = 0 then none
        else some (decide (|new_price - lp| / lp < threshold))

/-- Values appearing in wire-protocol dictionaries. -/
inductive WireVal where
  | s (v : String)
  | n (v : Nat)
  | q (v : ℚ)
  | obj (fields : List (String × WireVal))

/-- A wire-protocol dictionary: an association list of string keys. -/
abbrev Wire := List (String × WireVal)

/-- Python `dict.get(key)`: first binding of the key, if any. -/
def jget : Wire → String → Option WireVal
  | [], _ => none
  | (k, v) :: rest, key => if k = key then some v else jget rest key

/-- The fill-event dictionary built by the user-data feed before it is put
on `state.order_updates` (both the explicit-fill and the disappeared-order
sites build exactly this shape). -/
def mk_fill_event (i : Nat) (z : ℚ) (s : String) (d : String) : Wire :=
  [("e", .s "ORDER_FILLED"),
   ("o", .obj [("i", .n i), ("X", .s "FILLED"), ("z", .q z),
               ("s", .s s), ("d", .s d)])]

/-- `float(d.get(key, default))` for numeric wire values. -/
def asQD (x : Option WireVal) (dflt : ℚ) : ℚ :=
  match x with
  | some (.q v) => v
  | some (.n v) => (v : ℚ)
  | _ => dflt

/-- Python `==` between an optional wire value and an optional integer
(`order_data.get('order_id') == state.active_order_id`). -/
def pyEqOptNat (x : Option WireVal) (y : Option Nat) : Bool :=
  match x, y with
  | none, none => true
  | some (.n v), some a => decide (v = a)
  | _, _ => false

/-- Log levels of the Python `logging` module that the feed uses. -/
inductive LogLevel where
  | debug
  | info
  | warning
  | error
deriving DecidableEq, Repr

/-- One log call: level and a short tag for the message. -/
abbrev LogEntry := LogLevel × String

/-- One entry of an `account_positions` wire message, with the abbreviated
keys already parsed: `s` symbol, `a` amount, `p` entry price, `d` direction. -/
structure PositionData where
  s : String
  a : ℚ
  p : ℚ
  d : String
deriving DecidableEq, Repr

/-- One entry of an `account_orders` wire message: `i` order id, `f` filled
amount, `a` original amount, `s` symbol, `d` direction. -/
structure OrderData where
  i : Nat
  f : ℚ
  a : ℚ
  s : String
  d : String
deriving DecidableEq, Repr

/-- A parsed inbound message of the user-data feed, by channel. -/
inductive AccountMsg where
  | info (available : ℚ)
  | positions (ps : List PositionData)
  | orders (os : List OrderData)
deriving DecidableEq, Repr

/-- `account_info` branch of the user-data feed: update balance fields when
`available_to_spend` is positive. -/
def handle_account_info (now : ℚ) (st : MMState) (available : ℚ) : MMState :=
  if 0 < available then
    { st with usdc_balance := available, account_balance := some available,
              balance_last_updated := some now }
  else st

/-- Body of the `for position in positions_list` loop of the
`account_positions` branch, for one entry; returns the updated state and
whether the tracked symbol was found in this entry. -/
def handle_position_entry (symbol : String) (st : MMState)
    (p : PositionData) : MMState × Bool :=
  if p.s = symbol then
    let nps := if p.d = "ask" then -|p.a| else |p.a|
    let notional := if 0 < p.p then |nps * p.p| else 0
    let st1 := if POS_EPS < |st.position_size - nps| then
        { st with position_size := nps } else st
    let om := opening_mode st1.flip_mode
    let cm := closing_mode st1.flip_mode
    let st2 :=
      if notional < POSITION_THRESHOLD_USD then
        (if st1.mode ≠ om then { st1 with mode := om, position_size := 0 }
         else st1)
      else
        (if st1.mode ≠ cm then { st1 with mode := cm } else st1)
    (st2, true)
  else (st, false)

/-- The `for position in positions_list` loop, threading the state left to
right and accumulating `position_found`. -/
def handle_positions_list (symbol : String) (st : MMState) :
    List PositionData → MMState × Bool
  | [] => (st, false)
  | p :: rest =>
    let r := handle_position_entry symbol st p
    let r2 := handle_positions_list symbol r.1 rest
    (r2.1, r.2 || r2.2)

/-- Full `account_positions` branch, including the empty-list flattening
check after the loop. -/
def handle_positions (symbol : String) (st : MMState)
    (ps : List PositionData) : MMState :=
  let r := handle_positions_list symbol st ps
  if !r.2 && ps.isEmpty then
    if POS_EPS < |r.1.position_size| then
      let st2 : MMState := { r.1 with position_size := 0 }
      let om := opening_mode st2.flip_mode
      if st2.mode ≠ om then { st2 with mode := om } else st2
    else r.1
  else r.1

/-- Body of the `for order in orders_list` loop of the `account_orders`
branch, for one entry: returns (found, enqueued events, log calls). -/
def handle_orders_entry (activeId : Nat) (o : OrderData) :
    Bool × List Wire × List LogEntry :=
  if o.i = activeId then
    if o.a ≤ o.f then
      (true, [mk_fill_event o.i o.f o.s o.d],
       [(LogLevel.info, "order FILLED from WS")])
    else (true, [], [])
  else (false, [], [])

/-- The `for order in orders_list` loop of the `account_orders` branch. -/
def scan_orders (activeId : Nat) :
    List OrderData → Bool × List Wire × List LogEntry
  | [] => (false, [], [])
  | o :: rest =>
    let hd := handle_orders_entry activeId o
    let tl := scan_orders activeId rest
    (hd.1 || tl.1, hd.2.1 ++ tl.2.1, hd.2.2 ++ tl.2.2)

/-- Full `account_orders` branch: guarded by the truthiness of
`state.active_order_id`; when the active order is absent from the list a
synthetic FILLED event is enqueued at the last tracked order quantity and
an info-level line is logged.  The branch mutates no state fields. -/
def handle_orders (symbol : String) (st : MMState) (os : List OrderData) :
    List Wire × List LogEntry :=
  if pytruthyNat st.active_order_id then
    let id := st.active_order_id.getD 0
    let r := scan_orders id os
    if r.1 then (r.2.1, r.2.2)
    else
      (r.2.1 ++ [mk_fill_event id (st.last_order_quantity.getD 0) symbol
                   (pyStrOr st.last_order_side "bid")],
       r.2.2 ++ [(LogLevel.info, "active order no longer in open orders")])
  else ([], [])

/-- One inbound message processed by `websocket_user_data_updater`:
returns the new state, the events put on `state.order_updates`, and the
modelled log calls. -/
def handle_account_msg (symbol : String) (now : ℚ) (st : MMState)
    (msg : AccountMsg) : MMState × List Wire × List LogEntry :=
  match msg with
  | .info a => (handle_account_info now st a, [], [])
  | .positions ps => (handle_positions symbol st ps, [], [])
  | .orders os => (st, (handle_orders symbol st os).1, (handle_orders symbol st os).2)

/-- The fill-application block of the controller loop (after a FILLED event
for the active order): adjust `position_size` by the filled quantity, flip
mode, and clear the order-reuse tracking fields. -/
def apply_fill (st : MMState) (filled_qty : ℚ) : MMState :=
  let om := opening_mode st.flip_mode
  let cm := closing_mode st.flip_mode
  if st.mode = om then
    let ps := if om = "bid" then st.position_size + filled_qty
              else st.position_size - filled_qty
    { st with position_size := ps, mode := cm, last_order_price := none,
              last_order_side := none, last_order_quantity := none }
  else
    let ps := if cm = "ask" then st.position_size - filled_qty
              else st.position_size + filled_qty
    let thr := if pytruthyQ st.mid_price then
        POSITION_THRESHOLD_USD / st.mid_price.getD 0 else 0
    let st2 := if |ps| < thr then { st with position_size := ps, mode := om }
               else { st with position_size := ps }
    { st2 with last_order_price := none, last_order_side := none,
               last_order_quantity := none }

/-- Gateway calls observable in one controller cycle. -/
inductive GwAction where
  | cancelOrder (id : Nat)
  | cancelAll
  | placeOrder (price quantity : ℚ) (side : String) (reduceOnly : Bool)
deriving DecidableEq, Repr

/-- The WebSocket-health emergency branch at the top of the controller
cycle: when a feed flag is down and an order is active, issue one
best-effort cancel; on success clear the order-tracking fields, on failure
leave them (the cancel is retried next cycle).  The branch ends with
`continue`, so the returned action list is the whole gateway traffic of the
cycle. -/
def disconnected_cycle (st : MMState) (cancel_ok : Bool) :
    MMState × List GwAction :=
  if pytruthyNat st.active_order_id then
    let act := if CANCEL_SPECIFIC_ORDER then
        GwAction.cancelOrder (st.active_order_id.getD 0)
      else GwAction.cancelAll
    if cancel_ok then
      ({ st with active_order_id := none, last_order_price := none,
                 last_order_side := none, last_order_quantity := none },
       [act])
    else (st, [act])
  else (st, [])

/-- The health check guarding the branch: entered iff either flag is false. -/
def health_check_branch (price_ws_connected user_data_ws_connected : Bool)
    (st : MMState) (cancel_ok : Bool) : Option (MMState × List GwAction) :=
  if !price_ws_connected || !user_data_ws_connected then
    some (disconnected_cycle st cancel_ok)
  else none

/-- A run of consecutive controller cycles during which a feed stays
disconnected; one Bool per cycle gives whether that cycle's cancel attempt
(if any) succeeds. -/
def run_disconnected : MMState → List Bool → MMState × List GwAction
  | st, [] => (st, [])
  | st, ok :: rest =>
    let r := disconnected_cycle st ok
    let r2 := run_disconnected r.1 rest
    (r2.1, r.2 ++ r2.2)

/-- Number of cancel calls in an action list. -/
def countCancels (l : List GwAction) : Nat :=
  l.countP (fun a => match a with
    | .cancelOrder _ => true
    | .cancelAll => true
    | _ => false)

/-- Whether an action list contains an order placement. -/
def hasPlace (l : List GwAction) : Bool :=
  l.any (fun a => match a with
    | .placeOrder _ _ _ _ => true
    | _ => false)

/-- Outcome of the order-reuse monitoring wait. -/
inductive ReuseOutcome where
  | fill (qty : ℚ)
  | timeout
deriving DecidableEq, Repr

/-- Whether one dequeued update breaks the order-reuse monitoring loop
(the `update.get('type') == 'order_update'` branch); returns the loop's
`filled_qty` at the break, or `none` when the loop keeps waiting. -/
def reuse_break (active : Option Nat) (ev : Wire) : Option ℚ :=
  match jget ev "type" with
  | some (.s t) =>
    if t = "order_update" then
      let o := match jget ev "order" with
        | some (.obj fs) => fs
        | _ => []
      if pyEqOptNat (jget o "order_id") active then
        let filled := asQD (jget o "filled_amount") 0
        let statusBreak :=
          match jget o "status" with
          | some (.s st) =>
            (st = "partially_filled"
              && (let avg := asQD (jget o "average_price") 0
                  decide (0 < avg) && decide (POSITION_THRESHOLD_USD < filled * avg)))
            || (st = "filled" || st = "cancelled" || st = "rejected"
                || st = "expired")
          | _ => false
        if statusBreak then some filled else none
      else none
    else none
  | _ => none

/-- The order-reuse monitoring wait over the currently queued updates:
consumes events in order; if none breaks the loop the wait ends by recv
timeout with every queued event consumed and discarded. -/
def monitor_reuse (active : Option Nat) : List Wire → ReuseOutcome × Nat
  | [] => (.timeout, 0)
  | ev :: rest =>
    match reuse_break active ev with
    | some q => (.fill q, 1)
    | none =>
      let r := monitor_reuse active rest
      (r.1, r.2 + 1)

/-- What the controller's outer exception handler does with the cycle. -/
inductive LoopErrorAction where
  | desyncResetContinue
  | cooldownRetry
deriving DecidableEq, Repr

/-- The `except Exception` handler of the controller loop.  `has422` is
whether `"422"` occurs in the stringified error, `hasNoPositionFound`
whether `"No position found"` does.  The desync branch resets local state
and continues after a 2s sleep; the generic branch best-effort cancels the
active order and sleeps `RETRY_ON_ERROR_INTERVAL`. -/
def handle_loop_error (st : MMState) (has422 hasNoPositionFound : Bool)
    (cancel_ok : Bool) : MMState × List GwAction × LoopErrorAction :=
  if (has422 && decide (st.mode = closing_mode st.flip_mode))
      || hasNoPositionFound then
    ({ st with position_size := 0, mode := opening_mode st.flip_mode,
               active_order_id := none, last_order_price := none,
               last_order_side := none, last_order_quantity := none },
     [], .desyncResetContinue)
  else
    if pytruthyNat st.active_order_id then
      let act := if CANCEL_SPECIFIC_ORDER then
          GwAction.cancelOrder (st.active_order_id.getD 0)
        else GwAction.cancelAll
      if cancel_ok then
        ({ st with active_order_id := none, last_order_price := none,
                   last_order_side := none, last_order_quantity := none },
         [act], .cooldownRetry)
      else (st, [act], .cooldownRetry)
    else (st, [], .cooldownRetry)

/-- Events of the market-price feed task relevant to the connection flag. -/
inductive PriceFeedEvent where
  | connectAttempt
  | subscribed
  | recvMessage
  | recvTimeout (silence : ℚ)
  | connectionError
deriving DecidableEq, Repr

/-- The staleness decision taken when a 30s recv timeout fires:
`time_since_last_msg > 60` forces a reconnect. -/
def price_recv_stale (time_since_last_msg : ℚ) : Bool :=
  decide (60 < time_since_last_msg)

/-- Effect of one feed event on `state.price_ws_connected`: cleared at the
start of each connection attempt and on any teardown, set only once the
subscription request has been sent on a fresh connection. -/
def price_conn_step (c : Bool) : PriceFeedEvent → Bool
  | .connectAttempt => false
  | .subscribed => true
  | .recvMessage => c
  | .recvTimeout silence => if price_recv_stale silence then false else c
  | .connectionError => false

/-- The connection flag after a sequence of feed events. -/
def price_conn_run (c : Bool) (evs : List PriceFeedEvent) : Bool :=
  evs.foldl price_conn_step c

/-- Concrete state for the C1 counterexample: long-biased, opening mode,
flat position, mid price 100. -/
def stC1 : MMState := { mkStrategyState false with mid_price := some 100 }

/-- Concrete state for the C2 counterexample: long-biased, currently in
closing mode with a small position. -/
def stC2 : MMState :=
  { mkStrategyState false with mode := "ask", position_size := 1 / 20 }

/-- Concrete state for the C4 counterexample and witnesses: an active order
with tracked side, price and quantity. -/
def stC4 : MMState :=
  { mkStrategyState false with
      active_order_id := some 7,
      last_order_price := some 100, last_order_side := some "bid",
      last_order_quantity := some (3 / 2) }

/-- Concrete closing-mode state (long-biased, short position being closed)
used by the C1 and C8 witnesses. -/
def stC1w : MMState :=
  { mkStrategyState false with
      mode := "ask", mid_price := some 100, position_size := 1 }

/-! ## Theorems -/

theorem pyint_intCast (n : ℤ) : pyint (n : ℚ) = n := by
  unfold pyint
  split
  · exact Int.floor_intCast n
  · exact Int.ceil_intCast n

theorem pyround_intCast (n : ℤ) : pyround (n : ℚ) = n := by
  simp only [pyround, Int.floor_intCast, sub_self]
  norm_num

theorem round_down_idem (v : ℚ) (prec : ℕ) :
    round_down (round_down v prec) prec = round_down v prec := by
  have hf : ((10 : ℚ) ^ prec) ≠ 0 := by positivity
  unfold round_down
  rw [div_mul_cancel₀ _ hf, pyint_intCast]

theorem round_down_le (v : ℚ) (prec : ℕ) (hv : 0 ≤ v) :
    round_down v prec ≤ v := by
  have hf : (0 : ℚ) < 10 ^ prec := by positivity
  unfold round_down pyint
  rw [if_pos (by positivity : (0 : ℚ) ≤ v * 10 ^ prec)]
  rw [div_le_iff₀ hf]
  exact Int.floor_le _

theorem fmtq_mul_tick (m : ℤ) (k : ℕ) (prec : ℕ) :
    fmtq ((m : ℚ) * ((k : ℚ) / 10 ^ prec)) prec
      = (m : ℚ) * ((k : ℚ) / 10 ^ prec) := by
  have hf : ((10 : ℚ) ^ prec) ≠ 0 := by positivity
  unfold fmtq
  have h1 : (m : ℚ) * ((k : ℚ) / 10 ^ prec) * 10 ^ prec
      = ((m * (k : ℤ) : ℤ) : ℚ) := by
    push_cast
    field_simp
  rw [h1, pyround_intCast]
  push_cast
  rw [mul_div_assoc]

theorem quantize_price_idem (p tick : ℚ) (prec : ℕ) (k : ℕ) (hk : 0 < k)
    (htick : tick = (k : ℚ) / 10 ^ prec) :
    quantize_price (quantize_price p tick prec) tick prec
      = quantize_price p tick prec := by
  have htick0 : tick ≠ 0 := by
    rw [htick]
    exact div_ne_zero (by exact_mod_cast hk.ne') (by positivity)
  have hval : quantize_price p tick prec
      = ((pyround (p / tick) : ℚ)) * tick := by
    unfold quantize_price
    rw [htick]
    exact fmtq_mul_tick _ k prec
  rw [hval]
  unfold quantize_price
  rw [mul_div_cancel_right₀ _ htick0, pyround_intCast, htick]
  exact fmtq_mul_tick _ k prec

/-- C7 (confirmed): quantization is idempotent and, for quantities,
downward.  `quantize_price` (round to tick, then format to
`price_precision` decimals) is idempotent whenever the tick size is a
positive multiple of `10^(-price_precision)` (the exchange-filter
invariant), `round_down` (quantity quantization) is idempotent for every
input, and for non-negative raw quantities `round_down` never rounds up. -/
theorem C7_quantization_idem (p v tick : ℚ) (prec qprec : ℕ) (k : ℕ)
    (hk : 0 < k) (htick : tick = (k : ℚ) / 10 ^ prec) (hv : 0 ≤ v) :
    quantize_price (quantize_price p tick prec) tick prec
        = quantize_price p tick prec
    ∧ (∀ w : ℚ, round_down (round_down w qprec) qprec = round_down w qprec)
    ∧ round_down v qprec ≤ v :=
  ⟨quantize_price_idem p tick prec k hk htick,
   fun w => round_down_idem w qprec,
   round_down_le v qprec hv⟩

/-- Witness for C7 at tick 0.01, price precision 2, quantity 7/3 at
precision 3. -/
theorem C7_witness :
    quantize_price (quantize_price (123 / 1000) (1 / 100) 2) (1 / 100) 2
        = quantize_price (123 / 1000) (1 / 100) 2
    ∧ round_down (round_down (7 / 3) 3) 3 = round_down (7 / 3) 3
    ∧ round_down (7 / 3) 3 ≤ 7 / 3 := by
  have h := C7_quantization_idem (123 / 1000) (7 / 3) (1 / 100) 2 3 1
    (by norm_num) (by norm_num) (by norm_num)
  exact ⟨h.1, h.2.1 (7 / 3), h.2.2⟩

/-- C10 (confirmed): `is_balance_data_valid` is true exactly when both
`account_balance` and `balance_last_updated` are set; it takes no clock
input, so balance data of arbitrary age passes the controller's data
check, while `is_price_data_valid` rejects price data older than 30
seconds. -/
theorem C10_balance_validity :
    (∀ st : MMState, is_balance_data_valid st
        = (st.account_balance.isSome && st.balance_last_updated.isSome))
    ∧ (∀ (st : MMState) (t now : ℚ), 30 < now - t →
        is_price_data_valid st (some t) now = false)
    ∧ (∀ st : MMState, st.account_balance.isSome = true →
        st.balance_last_updated.isSome = true →
        is_balance_data_valid st = true) := by
  refine ⟨?_, ?_, ?_⟩
  · intro st
    cases h1 : st.account_balance <;> cases h2 : st.balance_last_updated <;>
      simp [is_balance_data_valid, h1, h2]
  · intro st t now h
    cases hm : st.mid_price <;> simp [is_price_data_valid, hm, h]
  · intro st h1 h2
    cases hb1 : st.account_balance <;> cases hb2 : st.balance_last_updated <;>
      simp_all [is_balance_data_valid]

/-- Witness for C10: price data 31 seconds old is rejected. -/
theorem C10_witness : is_price_data_valid stC1 (some 0) 31 = false :=
  C10_balance_validity.2.1 stC1 0 31 (by norm_num)

/-- Counterexample to C5 as stated: after a 45-second silence (strictly
more than the claimed 30-second window) at a recv-timeout check, the price
feed does not tear down and its connected flag stays set; the teardown
threshold in the code is 60 seconds, not 30. -/
theorem C5_counterexample :
    (30 : ℚ) < 45 ∧ price_recv_stale 45 = false
      ∧ price_conn_step true (.recvTimeout 45) = true := by
  refine ⟨by norm_num, by decide, by decide⟩

/-- C5 (amended): the market price feed tears down and reconnects exactly
when the silence observed at a recv-timeout check exceeds 60 seconds (the
recv timeout itself fires every 30 seconds), and once the connected flag is
false it stays false under every feed event until a resubscription
succeeds. -/
theorem C5_silence_window :
    (∀ t : ℚ, price_recv_stale t = true ↔ 60 < t)
    ∧ (∀ evs : List PriceFeedEvent,
        (∀ e ∈ evs, e ≠ PriceFeedEvent.subscribed) →
        price_conn_run false evs = false) := by
  constructor
  · intro t
    simp [price_recv_stale]
  · intro evs
    induction evs with
    | nil => intro _; rfl
    | cons e rest ih =>
      intro h
      have he : e ≠ PriceFeedEvent.subscribed := h e (List.mem_cons_self e rest)
      have hrest : ∀ x ∈ rest, x ≠ PriceFeedEvent.subscribed :=
        fun x hx => h x (List.mem_cons_of_mem e hx)
      have hstep : price_conn_step false e = false := by
        cases e <;> simp_all [price_conn_step]
      show price_conn_run (price_conn_step false e) rest = false
      rw [hstep]
      exact ih hrest

/-- Witness for C5: during an outage (connect attempt, long stale timeout)
with no successful resubscription the flag stays false. -/
theorem C5_witness :
    price_conn_run false
      [PriceFeedEvent.connectAttempt, PriceFeedEvent.recvTimeout 100] = false :=
  C5_silence_window.2 _ (by decide)

/-- C6 (confirmed): `should_reuse_order` returns false when no active order
exists, when the side differs, or when the quantity differs from the
tracked order's quantity by more than the epsilon; and when an active order
with matching side and quantity (within epsilon) exists, it returns true
exactly when the relative price change is strictly below the threshold, so
at the exact boundary value it returns false. -/
theorem C6_should_reuse (st : MMState) (p : ℚ) (side : String)
    (qty th : ℚ) :
    (st.active_order_id = none →
      should_reuse_order st p side qty th = some false)
    ∧ (st.last_order_side ≠ some side →
      should_reuse_order st p side qty th = some false)
    ∧ (∀ q0, st.last_order_quantity = some q0 →
        REUSE_QTY_EPS < |q0 - qty| →
        should_reuse_order st p side qty th = some false)
    ∧ (∀ lp q0, st.active_order_id.isSome = true →
        st.last_order_price = some lp → 0 < lp →
        st.last_order_side = some side →
        st.last_order_quantity = some q0 → |q0 - qty| ≤ REUSE_QTY_EPS →
        (should_reuse_order st p side qty th = some true
          ↔ |p - lp| / lp < th)) := by
  refine ⟨?_, ?_, ?_, ?_⟩
  · intro h
    simp [should_reuse_order, h]
  · intro h
    cases ha : st.active_order_id with
    | none => simp [should_reuse_order, ha]
    | some a =>
      cases hp : st.last_order_price with
      | none => simp [should_reuse_order, ha, hp]
      | some lp => simp [should_reuse_order, ha, hp, h]
  · intro q0 hq0 hlt
    cases ha : st.active_order_id with
    | none => simp [should_reuse_order, ha]
    | some a =>
      cases hp : st.last_order_price with
      | none => simp [should_reuse_order, ha, hp]
      | some lp =>
        by_cases hs : st.last_order_side = some side
        · simp [should_reuse_order, ha, hp, hs, hq0, hlt]
        · simp [should_reuse_order, ha, hp, hs]
  · intro lp q0 hsome hp hlp hs hq0 hle
    cases ha : st.active_order_id with
    | none => simp [ha] at hsome
    | some a =>
      have hnlt : ¬ REUSE_QTY_EPS < |q0 - qty| := not_lt.mpr hle
      have hlp0 : lp ≠ 0 := ne_of_gt hlp
      simp [should_reuse_order, ha, hp, hs, hq0, hnlt, hlp0]

/-- Witness for C6: with a matching active order at price 100 and a new
price of 100.05 (0.05% change, threshold 0.1%), the order is reused. -/
theorem C6_witness :
    should_reuse_order stC4 (10005 / 100) "bid" (3 / 2)
      DEFAULT_PRICE_CHANGE_THRESHOLD = some true := by
  have h := (C6_should_reuse stC4 (10005 / 100) "bid" (3 / 2)
      DEFAULT_PRICE_CHANGE_THRESHOLD).2.2.2 100 (3 / 2)
      rfl rfl (by norm_num) rfl rfl (by norm_num [REUSE_QTY_EPS])
  refine h.mpr ?_
  rw [abs_of_nonneg (by norm_num : (0:ℚ) ≤ 10005 / 100 - 100)]
  norm_num [DEFAULT_PRICE_CHANGE_THRESHOLD]

theorem str_bid_ne_ask : ("bid" : String) ≠ "ask" := by decide

theorem str_ask_ne_bid : ("ask" : String) ≠ "bid" := by decide

/-- Counterexample to C1 as stated: a terminal fill of 0.1 applied by the
controller while Opening with mid price 100 leaves a notional of 10 USD,
strictly below the threshold T = 15, yet the posture still flips to
Closing: the fill-application block flips unconditionally after an
Opening-side fill. -/
theorem C1_counterexample :
    stC1.mode = opening_mode stC1.flip_mode
    ∧ (apply_fill stC1 (1 / 10)).mode = closing_mode stC1.flip_mode
    ∧ |(apply_fill stC1 (1 / 10)).position_size * 100|
        < POSITION_THRESHOLD_USD := by
  refine ⟨rfl, ?_, ?_⟩
  · norm_num [apply_fill, stC1, mkStrategyState, opening_mode, closing_mode,
      pytruthyQ]
  · have h : (apply_fill stC1 (1 / 10)).position_size = 1 / 10 := by
      norm_num [apply_fill, stC1, mkStrategyState, opening_mode, closing_mode,
        pytruthyQ]
    rw [h, abs_of_nonneg (by norm_num : (0 : ℚ) ≤ 1 / 10 * 100)]
    norm_num [POSITION_THRESHOLD_USD]

/-- C1 (amended): after a terminal fill applied by the controller in
Opening posture the posture always flips to Closing, regardless of the
resulting notional; after a Closing-side fill the posture returns to
Opening exactly when the notional |positionSize * midPrice| falls strictly
below the threshold T = 15. -/
theorem C1_fill_posture (st : MMState) (q m : ℚ)
    (hm : st.mid_price = some m) (hm0 : 0 < m) :
    (st.mode = opening_mode st.flip_mode →
      (apply_fill st q).mode = closing_mode st.flip_mode)
    ∧ (st.mode ≠ opening_mode st.flip_mode →
        ((apply_fill st q).mode = opening_mode st.flip_mode
          ↔ |(apply_fill st q).position_size * m|
              < POSITION_THRESHOLD_USD)) := by
  have key : ∀ x : ℚ, (|x| < POSITION_THRESHOLD_USD / m
      ↔ |x * m| < POSITION_THRESHOLD_USD) := by
    intro x
    rw [abs_mul, abs_of_pos hm0, lt_div_iff₀ hm0]
  have htr : pytruthyQ (some m) = true := by
    simp [pytruthyQ, hm0.ne']
  constructor
  · intro h
    simp [apply_fill, h]
  · intro h
    cases hf : st.flip_mode with
    | false =>
      replace h : ¬ st.mode = "bid" := by
        simpa [opening_mode, hf] using h
      by_cases hlt : |st.position_size - q| < POSITION_THRESHOLD_USD / m
      · have hval := (key (st.position_size - q)).mp hlt
        simp [apply_fill, opening_mode, closing_mode, hf, h, htr, hm, hlt,
          hval]
      · have hval := (not_congr (key (st.position_size - q))).mp hlt
        simp [apply_fill, opening_mode, closing_mode, hf, h, htr, hm, hlt,
          hval]
    | true =>
      replace h : ¬ st.mode = "ask" := by
        simpa [opening_mode, hf] using h
      by_cases hlt : |st.position_size + q| < POSITION_THRESHOLD_USD / m
      · have hval := (key (st.position_size + q)).mp hlt
        simp [apply_fill, opening_mode, closing_mode, hf, h, htr, hm, hlt,
          hval]
      · have hval := (not_congr (key (st.position_size + q))).mp hlt
        simp [apply_fill, opening_mode, closing_mode, hf, h, htr, hm, hlt,
          hval]

/-- Witness for C1: a closing-side fill of 0.95 against a long position of
1 at mid 100 leaves notional 5 USD below the threshold, and the posture
returns to Opening. -/
theorem C1_witness :
    (apply_fill stC1w (19 / 20)).mode = opening_mode stC1w.flip_mode := by
  have h := (C1_fill_posture stC1w (19 / 20) 100 rfl (by norm_num)).2
    (by simp [stC1w, mkStrategyState, opening_mode])
  refine h.mpr ?_
  have hps : (apply_fill stC1w (19 / 20)).position_size = 1 / 20 := by
    norm_num [apply_fill, stC1w, mkStrategyState, opening_mode, closing_mode,
      pytruthyQ, POSITION_THRESHOLD_USD, str_ask_ne_bid, str_bid_ne_ask,
      abs_of_nonneg, abs_of_pos]
  rw [hps, abs_of_nonneg (by norm_num : (0 : ℚ) ≤ 1 / 20 * 100)]
  norm_num [POSITION_THRESHOLD_USD]

theorem handle_position_entry_active (symbol : String) (st : MMState)
    (p : PositionData) :
    (handle_position_entry symbol st p).1.active_order_id
      = st.active_order_id := by
  simp only [handle_position_entry]
  split_ifs <;> rfl

theorem handle_positions_list_active (symbol : String) (st : MMState)
    (ps : List PositionData) :
    (handle_positions_list symbol st ps).1.active_order_id
      = st.active_order_id := by
  induction ps generalizing st with
  | nil => rfl
  | cons p rest ih =>
    show (handle_positions_list symbol
        (handle_position_entry symbol st p).1 rest).1.active_order_id
      = st.active_order_id
    rw [ih]
    exact handle_position_entry_active symbol st p

theorem handle_positions_active (symbol : String) (st : MMState)
    (ps : List PositionData) :
    (handle_positions symbol st ps).active_order_id = st.active_order_id := by
  have hbase := handle_positions_list_active symbol st ps
  simp only [handle_positions]
  split_ifs <;> simpa using hbase

/-- Counterexample to C2 as stated: an `account_positions` message whose
tracked-symbol entry has notional 5 USD (below the threshold) makes the
account data feed itself switch `mode` from "ask" back to "bid" - the feed
task, not the controller, writes the posture field. -/
theorem C2_counterexample :
    (handle_account_msg "BTC" 0 stC2
        (AccountMsg.positions [⟨"BTC", 1 / 20, 100, "bid"⟩])).1.mode
      ≠ stC2.mode := by
  have h : (handle_account_msg "BTC" 0 stC2
      (AccountMsg.positions [⟨"BTC", 1 / 20, 100, "bid"⟩])).1.mode
      = "bid" := by
    norm_num [handle_account_msg, handle_positions, handle_positions_list,
      handle_position_entry, stC2, mkStrategyState, opening_mode,
      closing_mode, POS_EPS, POSITION_THRESHOLD_USD, str_bid_ne_ask,
      str_ask_ne_bid, abs_of_nonneg, abs_of_pos]
  rw [h]
  decide

/-- C2 (amended): the account data feed never writes `active_order_id`,
and the `account_orders` branch mutates no state field at all - fill
detection is communicated exclusively through the event queue; however,
`account_positions` (and `account_info` balance) messages do mutate `mode`
and `position_size` directly in the feed task. -/
theorem C2_feed_frame (symbol : String) (now : ℚ) (st : MMState) :
    (∀ msg : AccountMsg,
        (handle_account_msg symbol now st msg).1.active_order_id
          = st.active_order_id)
    ∧ (∀ os : List OrderData,
        (handle_account_msg symbol now st (AccountMsg.orders os)).1 = st) := by
  constructor
  · intro msg
    cases msg with
    | info a =>
      simp only [handle_account_msg, handle_account_info]
      split_ifs <;> rfl
    | positions ps => exact handle_positions_active symbol st ps
    | orders os => rfl
  · intro os
    rfl

theorem disconnected_cycle_no_active (st : MMState)
    (h : st.active_order_id = none) (ok : Bool) :
    disconnected_cycle st ok = (st, []) := by
  simp [disconnected_cycle, pytruthyNat, h]

theorem run_disconnected_no_active (st : MMState)
    (h : st.active_order_id = none) (oks : List Bool) :
    run_disconnected st oks = (st, []) := by
  induction oks with
  | nil => rfl
  | cons ok rest ih =>
    simp only [run_disconnected, disconnected_cycle_no_active st h ok]
    simpa using ih

/-- C3 (confirmed): in a controller cycle entered with a feed flag down,
the emergency branch issues exactly one cancel when an order is active and
never places an order; over a whole disconnected stretch whose first
cancel succeeds, exactly one cancel is issued in total and no order is
placed until both flags are true again (the branch is entered exactly when
a flag is false). -/
theorem C3_disconnected_safety (st : MMState) (ok : Bool) (id : Nat)
    (oks : List Bool) (price_conn user_conn : Bool) :
    (hasPlace (disconnected_cycle st ok).2 = false)
    ∧ (st.active_order_id = some id → id ≠ 0 →
        (disconnected_cycle st ok).2 = [GwAction.cancelOrder id])
    ∧ (st.active_order_id = some id → id ≠ 0 →
        countCancels (run_disconnected st (true :: oks)).2 = 1
        ∧ hasPlace (run_disconnected st (true :: oks)).2 = false)
    ∧ (price_conn = false ∨ user_conn = false →
        health_check_branch price_conn user_conn st ok
          = some (disconnected_cycle st ok)) := by
  refine ⟨?_, ?_, ?_, ?_⟩
  · simp only [disconnected_cycle]
    split_ifs <;> simp [hasPlace, CANCEL_SPECIFIC_ORDER]
  · intro ha h0
    cases ok <;>
      simp [disconnected_cycle, pytruthyNat, ha, h0, CANCEL_SPECIFIC_ORDER]
  · intro ha h0
    have h1 : disconnected_cycle st true
        = ({ st with
              active_order_id := none, last_order_price := none,
              last_order_side := none, last_order_quantity := none },
           [GwAction.cancelOrder id]) := by
      simp [disconnected_cycle, pytruthyNat, ha, h0, CANCEL_SPECIFIC_ORDER]
    have hacts : (run_disconnected st (true :: oks)).2
        = [GwAction.cancelOrder id] := by
      simp only [run_disconnected, h1]
      rw [run_disconnected_no_active _ rfl oks]
      simp
    rw [hacts]
    constructor
    · simp [countCancels]
    · simp [hasPlace]
  · intro hdis
    rcases hdis with h | h <;> simp [health_check_branch, h]

/-- Witness for C3: with an active order and three consecutive
disconnected cycles whose cancels succeed, exactly one cancel is issued
and no order is placed. -/
theorem C3_witness :
    countCancels (run_disconnected stC4 [true, true, true]).2 = 1
    ∧ hasPlace (run_disconnected stC4 [true, true, true]).2 = false :=
  (C3_disconnected_safety stC4 true 7 [true, true] false true).2.2.1
    rfl (by decide)

theorem scan_orders_no_match (id : Nat) (os : List OrderData)
    (h : ∀ o ∈ os, o.i ≠ id) : scan_orders id os = (false, [], []) := by
  revert h
  induction os with
  | nil =>
    intro _
    rfl
  | cons o rest ih =>
    intro h
    have ho : o.i ≠ id := h o (List.mem_cons_self o rest)
    have hrest := ih (fun x hx => h x (List.mem_cons_of_mem o hx))
    simp [scan_orders, handle_orders_entry, ho, hrest]

/-- Counterexample to C4 as stated: with an active order and an
`account_orders` message not containing it, the feed does enqueue the
synthetic terminal fill event, but the accompanying log line is emitted at
info level, not warning. -/
theorem C4_counterexample :
    (handle_account_msg "BTC" 0 stC4 (AccountMsg.orders [])).2.2
      = [(LogLevel.info, "active order no longer in open orders")]
    ∧ (handle_account_msg "BTC" 0 stC4 (AccountMsg.orders [])).2.1
      = [mk_fill_event 7 (3 / 2) "BTC" "bid"] := by
  constructor <;>
    norm_num [handle_account_msg, handle_orders, scan_orders, pytruthyNat,
      pyStrOr, stC4, mkStrategyState]

/-- C4 (amended): for every `account_orders` message whose list does not
contain the tracked active order id, the feed enqueues exactly one
synthetic terminal FillEvent for that order whose filled quantity is the
last tracked order quantity (0 when unset), logs one info-level (not
warning) line, and leaves the state unchanged. -/
theorem C4_disappeared_order (symbol : String) (now : ℚ) (st : MMState)
    (os : List OrderData) (id : Nat) (hid : st.active_order_id = some id)
    (h0 : id ≠ 0) (habs : ∀ o ∈ os, o.i ≠ id) :
    (handle_account_msg symbol now st (AccountMsg.orders os)).2.1
      = [mk_fill_event id (st.last_order_quantity.getD 0) symbol
          (pyStrOr st.last_order_side "bid")]
    ∧ ((handle_account_msg symbol now st (AccountMsg.orders os)).2.2).map
        Prod.fst = [LogLevel.info]
    ∧ (handle_account_msg symbol now st (AccountMsg.orders os)).1 = st := by
  have hscan := scan_orders_no_match id os habs
  refine ⟨?_, ?_, rfl⟩ <;>
    simp [handle_account_msg, handle_orders, pytruthyNat, hid, h0, hscan]

/-- Witness for C4: a message listing only an unrelated order id yields the
synthetic fill event for the tracked order. -/
theorem C4_witness :
    (handle_account_msg "BTC" 0 stC4
        (AccountMsg.orders [⟨9, 0, 1, "BTC", "bid"⟩])).2.1
      = [mk_fill_event 7 (stC4.last_order_quantity.getD 0) "BTC"
          (pyStrOr stC4.last_order_side "bid")] :=
  (C4_disappeared_order "BTC" 0 stC4 [⟨9, 0, 1, "BTC", "bid"⟩] 7 rfl
    (by decide) (by decide)).1

/-- C8 (confirmed): when the controller's outer handler catches an error
recognised as a reduce-only desync (a 422 rejection while in closing mode,
or an explicit no-position message), it unconditionally resets
position_size to 0, posture to Opening and active order to nil, and the
cycle continues after the short cooldown instead of propagating the
error. -/
theorem C8_desync_reset (st : MMState) (has422 hnp ok : Bool)
    (h : (has422 = true ∧ st.mode = closing_mode st.flip_mode)
      ∨ hnp = true) :
    (handle_loop_error st has422 hnp ok).1.position_size = 0
    ∧ (handle_loop_error st has422 hnp ok).1.mode
        = opening_mode st.flip_mode
    ∧ (handle_loop_error st has422 hnp ok).1.active_order_id = none
    ∧ (handle_loop_error st has422 hnp ok).2.2
        = LoopErrorAction.desyncResetContinue := by
  have hc : ((has422 && decide (st.mode = closing_mode st.flip_mode))
      || hnp) = true := by
    rcases h with ⟨h1, h2⟩ | h1
    · simp [h1, h2]
    · simp [h1]
  simp [handle_loop_error, hc]

/-- Witness for C8: a 422 rejection caught while in closing mode resets the
state and continues. -/
theorem C8_witness :
    (handle_loop_error stC1w true false true).1.mode
      = opening_mode stC1w.flip_mode
    ∧ (handle_loop_error stC1w true false true).2.2
      = LoopErrorAction.desyncResetContinue := by
  have h := C8_desync_reset stC1w true false true
    (Or.inl ⟨rfl, by simp [stC1w, mkStrategyState, closing_mode]⟩)
  exact ⟨h.2.1, h.2.2.2⟩

theorem handle_orders_entry_events (id : Nat) (o : OrderData) (ev : Wire)
    (h : ev ∈ (handle_orders_entry id o).2.1) :
    ∃ i z s d, ev = mk_fill_event i z s d := by
  simp only [handle_orders_entry] at h
  split_ifs at h
  · simp only [List.mem_singleton] at h
    exact ⟨o.i, o.f, o.s, o.d, h⟩
  · simp at h
  · simp at h

theorem scan_orders_events (id : Nat) (os : List OrderData) (ev : Wire)
    (h : ev ∈ (scan_orders id os).2.1) :
    ∃ i z s d, ev = mk_fill_event i z s d := by
  revert h
  induction os with
  | nil =>
    intro h
    simp [scan_orders] at h
  | cons o rest ih =>
    intro h
    simp only [scan_orders] at h
    rw [List.mem_append] at h
    rcases h with h | h
    · exact handle_orders_entry_events id o ev h
    · exact ih h

theorem handle_orders_events (symbol : String) (st : MMState)
    (os : List OrderData) (ev : Wire)
    (h : ev ∈ (handle_orders symbol st os).1) :
    ∃ i z s d, ev = mk_fill_event i z s d := by
  simp only [handle_orders] at h
  split_ifs at h
  · exact scan_orders_events _ os ev h
  · rw [List.mem_append] at h
    rcases h with h | h
    · exact scan_orders_events _ os ev h
    · simp only [List.mem_singleton] at h
      exact ⟨_, _, _, _, h⟩
  · simp at h

theorem reuse_break_mk (active : Option Nat) (i : Nat) (z : ℚ)
    (s d : String) : reuse_break active (mk_fill_event i z s d) = none := by
  simp [reuse_break, mk_fill_event, jget]

theorem monitor_reuse_feed_events (active : Option Nat) (evs : List Wire)
    (h : ∀ ev ∈ evs, ∃ i z s d, ev = mk_fill_event i z s d) :
    monitor_reuse active evs = (ReuseOutcome.timeout, evs.length) := by
  revert h
  induction evs with
  | nil =>
    intro _
    rfl
  | cons ev rest ih =>
    intro h
    obtain ⟨i, z, s, d, hev⟩ := h ev (List.mem_cons_self ev rest)
    have hrest := ih (fun x hx => h x (List.mem_cons_of_mem ev hx))
    simp [monitor_reuse, hev, reuse_break_mk, hrest]

/-- C9 (confirmed): every event the account feed ever enqueues has the
fill-event dictionary shape, which carries key "e" = "ORDER_FILLED" and no
"type" key; the order-reuse monitoring branch filters on
get("type") == "order_update", so none of these events can break its wait:
it always ends by timeout after consuming and discarding every queued
event. -/
theorem C9_reuse_monitor_unreachable :
    (∀ (symbol : String) (now : ℚ) (st : MMState) (msg : AccountMsg)
        (ev : Wire), ev ∈ (handle_account_msg symbol now st msg).2.1 →
        ∃ i z s d, ev = mk_fill_event i z s d)
    ∧ (∀ (i : Nat) (z : ℚ) (s d : String),
        jget (mk_fill_event i z s d) "e" = some (WireVal.s "ORDER_FILLED")
        ∧ jget (mk_fill_event i z s d) "type" = none)
    ∧ (∀ (active : Option Nat) (evs : List Wire),
        (∀ ev ∈ evs, ∃ i z s d, ev = mk_fill_event i z s d) →
        monitor_reuse active evs = (ReuseOutcome.timeout, evs.length)) := by
  refine ⟨?_, ?_, monitor_reuse_feed_events⟩
  · intro symbol now st msg ev h
    cases msg with
    | info a => simp [handle_account_msg] at h
    | positions ps => simp [handle_account_msg] at h
    | orders os => exact handle_orders_events symbol st os ev h
  · intro i z s d
    constructor
    · simp [mk_fill_event, jget]
    · simp [mk_fill_event, jget]

/-- Witness for C9: even a fill event for the currently monitored order id
does not break the reuse wait; it times out having consumed the event. -/
theorem C9_witness :
    monitor_reuse (some 5) [mk_fill_event 5 1 "BTC" "bid"]
      = (ReuseOutcome.timeout, 1) := by
  have hall : ∀ ev ∈ [mk_fill_event 5 1 "BTC" "bid"],
      ∃ i z s d, ev = mk_fill_event i z s d := by
    intro ev hev
    rw [List.mem_singleton] at hev
    exact ⟨5, 1, "BTC", "bid", hev⟩
  simpa using C9_reuse_monitor_unreachable.2.2 (some 5) _ hall
